import Mathlib

/-!
Verification development for the launch-risk-radar ingestion-and-escalation
pipeline.  The Python sources under `src/radar/` are shallowly embedded:
pure computations become Lean functions, external collaborator calls
(BaseScan, the risk evaluators, the alert transports, the chain RPC) become
explicit oracle parameters returning `Except String _` (an exception raised
by the call is the `.error` case), and the sqlite-backed `Store` becomes an
explicit state record threaded through the scan loop.  Python strings are
sequences of code points, modelled by Lean `String` (whose `data` field is
the list of code points); Python slicing `s[:n]` is modelled by `pySlice`.
-/

set_option maxRecDepth 10000

/-- Model of Python slicing `s[:n]`: the first `n` code points of `s`. -/
def pySlice (s : String) (n : Nat) : String :=
  String.mk (s.data.take n)

/-- Model of Python truthiness for an `Optional[str]` value: `None` and the
empty string are falsy, every other string is truthy. -/
def truthy : Option String → Bool
  | none => false
  | some s => !s.isEmpty

/-- Model of a Python f-string rendering of an `Optional[str]`: `None`
renders as the text "None". -/
def optStr : Option String → String
  | none => "None"
  | some s => s

/-- Deployment record from `base_rpc.py`: one contract-creation transaction
observed in a block. -/
structure Deployment where
  block_number : Nat
  tx_hash : String
  contract_address : String
  deployer : String
deriving DecidableEq, Repr

/-- ContractSource from `basescan.py`: the enrichment payload returned by
`fetch_contract_source`. -/
structure ContractSource where
  verified : Bool
  source_code : Option String
  contract_name : Option String
  compiler_version : Option String
  abi : Option String
deriving DecidableEq, Repr

/-- RiskAssessment from `analyzer.py`.  The `score` field is a Python `int`
(unbounded), hence `Int` here; the dataclass comment documents the intended
invariant `0..10`. -/
structure RiskAssessment where
  score : Int
  headline : String
  tags : List String
  details : String
  tier : String
deriving DecidableEq, Repr

/-- Config from `config.py`. -/
structure Config where
  base_rpc_url : String
  poll_interval_seconds : Int
  start_block : String
  alert_min_score : Int
  deep_analysis_threshold : Int
  anthropic_api_key : Option String
  basescan_api_key : Option String
  telegram_bot_token : Option String
  telegram_chat_id : Option String
  whatsapp_target : Option String
deriving DecidableEq, Repr

/-- Decimal reading of a digit list, used to model Python `int(...)`. -/
def digitsToNat (l : List Char) : Option Nat :=
  if l ≠ [] ∧ l.all (fun c => c.isDigit) then
    some (l.foldl (fun n c => n * 10 + (c.toNat - '0'.toNat)) 0)
  else none

/-- Model of Python `int(s)` on plain decimal literals (an optional minus
sign followed by digits); any other string raises `ValueError`, the `none`
case here. -/
def pyInt (s : String) : Option Int :=
  match s.data with
  | '-' :: rest => (digitsToNat rest).map fun n => -(n : Int)
  | chars => (digitsToNat chars).map fun n => (n : Int)

/-- Model of `config.py load_config` over an abstract environment-variable
map (`os.environ.get`).  The three integer fields go through `int(...)`,
which raises on a non-numeric string; that failure is the `none` case. -/
def load_config (envv : String → Option String) : Option Config :=
  match pyInt ((envv "POLL_INTERVAL_SECONDS").getD "30"),
        pyInt ((envv "ALERT_MIN_SCORE").getD "3"),
        pyInt ((envv "DEEP_ANALYSIS_THRESHOLD").getD "6") with
  | some poll, some amin, some dth =>
      some { base_rpc_url := (envv "BASE_RPC_URL").getD "https://mainnet.base.org"
             poll_interval_seconds := poll
             start_block := (envv "START_BLOCK").getD "latest"
             alert_min_score := amin
             deep_analysis_threshold := dth
             anthropic_api_key := envv "ANTHROPIC_API_KEY"
             basescan_api_key := envv "BASESCAN_API_KEY"
             telegram_bot_token := envv "TELEGRAM_BOT_TOKEN"
             telegram_chat_id := envv "TELEGRAM_CHAT_ID"
             whatsapp_target := envv "WHATSAPP_TARGET" }
  | _, _, _ => none

/-- Parsed JSON object accepted by `fast_triage` in `analyzer.py`: the
response must carry an integer-convertible "score" and a "headline"
(otherwise `int(result["score"])` or `result["headline"]` raises inside the
`try`, which is the `.error` case of the call oracle); "tags" defaults to
`[]` via `result.get("tags", [])`. -/
structure FastResponse where
  score : Int
  headline : String
  tags : List String
deriving DecidableEq, Repr

/-- One entry of the "findings" array accepted by `deep_analysis`:
"severity", "title" and "description" are indexed directly (a missing key
raises, putting the whole call on the fallback path), while "evidence" and
"confidence" go through `.get` with default "N/A". -/
structure Finding where
  severity : String
  title : String
  description : String
  evidence : Option String
  confidence : Option String
deriving DecidableEq, Repr

/-- Parsed JSON object accepted by `deep_analysis`: "score" and "headline"
are required, "tags" and "findings" default to `[]`, "summary" defaults to
the empty string. -/
structure DeepResponse where
  score : Int
  headline : String
  tags : List String
  findings : List Finding
  summary : String
deriving DecidableEq, Repr

/-- Context builder `_build_context` from `analyzer.py`.  Mirrors the
Python truthiness chain `if source and source.verified: ... elif bytecode:
... else: ...` and the `bytecode[:8000]` slice. -/
def build_context (address deployer : String) (source : Option ContractSource)
    (bytecode : Option String) : String :=
  let base : List String :=
    ["Contract address: " ++ address, "Deployer: " ++ deployer, "Chain: Base (L2)"]
  let bytecodeOrNothing : List String :=
    match bytecode with
    | some b => ["\n--- Bytecode (no verified source) ---\n" ++ pySlice b 8000]
    | none => ["\nNo verified source code or bytecode available. Score based on metadata only."]
  let extra : List String :=
    match source with
    | some s =>
        if s.verified then
          ["Contract name: " ++ optStr s.contract_name,
           "Compiler: " ++ optStr s.compiler_version,
           "\n--- Verified Source Code ---\n" ++ optStr s.source_code]
        else bytecodeOrNothing
    | none => bytecodeOrNothing
  String.intercalate "\n" (base ++ extra)

/-- Tier-1 `fast_triage` from `analyzer.py`.  `callClaude` is the external
`_call_claude` oracle, a function of the request context; any exception it
raises (transport error, malformed JSON, missing/non-integer "score") is
the `.error` case and lands on the fixed fallback assessment. -/
def fast_triage (address deployer : String) (source : Option ContractSource)
    (bytecode : Option String) (callClaude : String → Except String FastResponse) :
    RiskAssessment :=
  let ctx := build_context address deployer source bytecode
  match callClaude ctx with
  | .ok result =>
      { score := result.score, headline := result.headline, tags := result.tags
        details := "", tier := "fast" }
  | .error e =>
      { score := 5, headline := "Fast triage failed: " ++ e, tags := ["triage-error"]
        details := e, tier := "fast" }

/-- Rendering of one finding inside the report loop of `deep_analysis`. -/
def findingText (f : Finding) : String :=
  "\n[" ++ f.severity.toUpper ++ "] " ++ f.title ++ "\n" ++
  "  " ++ f.description ++ "\n" ++
  "  Evidence: " ++ (f.evidence.getD "N/A") ++ "\n" ++
  "  Confidence: " ++ (f.confidence.getD "N/A") ++ "\n"

/-- Tier-2 `deep_analysis` from `analyzer.py`, with the same oracle scheme
as `fast_triage` and its own fixed fallback assessment. -/
def deep_analysis (address deployer : String) (source : Option ContractSource)
    (bytecode : Option String) (callClaude : String → Except String DeepResponse) :
    RiskAssessment :=
  let ctx := build_context address deployer source bytecode
  match callClaude ctx with
  | .ok result =>
      let findings_text := String.join (result.findings.map findingText)
      let details := result.summary ++ "\n\n--- Findings ---" ++ findings_text
      { score := result.score, headline := result.headline, tags := result.tags
        details := details, tier := "deep" }
  | .error e =>
      { score := 5, headline := "Deep analysis failed: " ++ e, tags := ["analysis-error"]
        details := e, tier := "deep" }

/-- Placeholder `quick_heuristic_assess` from `analyzer.py`, used when no
Anthropic API key is configured. -/
def quick_heuristic_assess (contract_address : String) : RiskAssessment :=
  { score := 5, headline := "New contract detected (triage pending)"
    tags := ["unverified"], details := "Contract: " ++ contract_address
    tier := "placeholder" }

/-- Intercalation helper matching Python `", ".join(tags)`. -/
def joinTags (tags : List String) : String :=
  String.intercalate ", " tags

/-- Alert formatter `format_fast_alert` from `publishers.py`. -/
def format_fast_alert (dep : Deployment) (risk : RiskAssessment) : String :=
  let emoji := if risk.score ≥ 7 then "🔴" else if risk.score ≥ 4 then "🟡" else "🟢"
  emoji ++ " New Base contract\n" ++
  "Risk: " ++ toString risk.score ++ "/10 — " ++ risk.headline ++ "\n" ++
  "Tags: " ++ joinTags risk.tags ++ "\n\n" ++
  "Address: " ++ dep.contract_address ++ "\n" ++
  "Deployer: " ++ dep.deployer ++ "\n" ++
  "Block: " ++ toString dep.block_number ++ "\n" ++
  "BaseScan: https://basescan.org/address/" ++ dep.contract_address ++ "\n"

/-- Alert formatter `format_deep_alert` from `publishers.py`, including the
`risk.details[:2000]` messaging truncation. -/
def format_deep_alert (dep : Deployment) (risk : RiskAssessment) : String :=
  let emoji := if risk.score ≥ 7 then "🔴" else if risk.score ≥ 4 then "🟡" else "🟢"
  let header :=
    emoji ++ " DEEP ANALYSIS — Risk " ++ toString risk.score ++ "/10\n" ++
    risk.headline ++ "\n" ++
    "Tags: " ++ joinTags risk.tags ++ "\n\n" ++
    "Contract: " ++ dep.contract_address ++ "\n" ++
    "Deployer: " ++ dep.deployer ++ "\n" ++
    "BaseScan: https://basescan.org/address/" ++ dep.contract_address ++ "\n"
  if risk.details ≠ "" then
    header ++ "\n--- Report ---\n" ++ pySlice risk.details 2000 ++ "\n"
  else header

/-- Text-transformation half of `send_telegram` from `publishers.py`: the
text actually handed to the Telegram transport, after the length guard
`if len(text) > 4000: text = text[:4000] + "\n…(truncated)"`. -/
def send_telegram_text (text : String) : String :=
  if text.length > 4000 then pySlice text 4000 ++ "\n…(truncated)" else text

/-- Notification channels wired in `_publish` of `main.py`. -/
inductive Channel where
  | telegram
  | whatsapp
deriving DecidableEq, Repr

/-- Outcome of one `_publish` call: which channel sends were issued (the
tasks built before `asyncio.gather`), which succeeded, and the error lines
printed for the failures.  `asyncio.gather(..., return_exceptions=True)`
converts every per-channel exception into a value, so `_publish` itself
always returns normally; that is why this model's result type has no error
case. -/
structure PublishResult where
  message : String
  attempted : List Channel
  delivered : List Channel
  errors : List String
deriving DecidableEq, Repr

/-- Oracle bundle for one run of the escalation pipeline
(`enrich_and_triage` plus the transports it reaches): the outcome of each
external call, as a function of its input where the input matters.  An
exception raised by the external call is the `.error` case. -/
structure PipelineEnv where
  sourceCall : Except String ContractSource
  bytecodeCall : Except String (Option String)
  fastCall : String → Except String FastResponse
  deepCall : String → Except String DeepResponse
  telegramSend : String → Except String Unit
  whatsappSend : String → Except String Unit

/-- Alert fan-out `_publish` from `main.py`: build one send task per
configured channel, run them under `asyncio.gather` with
`return_exceptions=True`, and print a "Publish error" line for each result
that is an exception. -/
def publish (cfg : Config) (env : PipelineEnv) (msg : String) : PublishResult :=
  let tasks : List (Channel × Except String Unit) :=
    (if truthy cfg.telegram_bot_token && truthy cfg.telegram_chat_id then
       [(Channel.telegram, env.telegramSend (send_telegram_text msg))]
     else []) ++
    (if truthy cfg.whatsapp_target then [(Channel.whatsapp, env.whatsappSend msg)] else [])
  { message := msg
    attempted := tasks.map Prod.fst
    delivered := tasks.filterMap fun t =>
      match t.2 with
      | .ok _ => some t.1
      | .error _ => none
    errors := tasks.filterMap fun t =>
      match t.2 with
      | .ok _ => none
      | .error e => some ("Publish error: " ++ e) }

/-- Step 1 of `enrich_and_triage`: the BaseScan enrichment block.  The
`try` covers both fetches; on any failure the locals keep the values they
had (`source` may already be set when the bytecode fetch fails), and the
exception is swallowed with a console warning. -/
def enrich (env : PipelineEnv) : Option ContractSource × Option String :=
  match env.sourceCall with
  | .error _ => (none, none)
  | .ok src =>
      if src.verified then (some src, none)
      else
        match env.bytecodeCall with
        | .error _ => (some src, none)
        | .ok b => (some src, b)

/-- Observable outcome of one `enrich_and_triage` run: the enrichment the
fast tier saw, the fast assessment, the optional fast publish, whether the
deep evaluator was invoked, and the deep assessment/publish when it was.
A trace value existing for every input is the model-level statement that
the pipeline reaches `Done` (the function returns) on that input. -/
structure PipelineTrace where
  source : Option ContractSource
  bytecode : Option String
  fastAssessment : RiskAssessment
  fastPublish : Option PublishResult
  deepCalled : Bool
  deepAssessment : Option RiskAssessment
  deepPublish : Option PublishResult
deriving DecidableEq, Repr

/-- Escalation pipeline `enrich_and_triage` from `main.py`: enrichment,
fast triage (heuristic placeholder when no Anthropic key is configured),
threshold-gated fast alert, and threshold-gated deep analysis with its own
alert. -/
def enrich_and_triage (dep : Deployment) (cfg : Config) (env : PipelineEnv) :
    PipelineTrace :=
  let sb := enrich env
  let source := sb.1
  let bytecode := sb.2
  let risk :=
    if truthy cfg.anthropic_api_key then
      fast_triage dep.contract_address dep.deployer source bytecode env.fastCall
    else quick_heuristic_assess dep.contract_address
  let fastPublish :=
    if risk.score ≥ cfg.alert_min_score then
      some (publish cfg env (format_fast_alert dep risk))
    else none
  if risk.score ≥ cfg.deep_analysis_threshold ∧ truthy cfg.anthropic_api_key then
    let deep_risk :=
      deep_analysis dep.contract_address dep.deployer source bytecode env.deepCall
    { source := source, bytecode := bytecode, fastAssessment := risk
      fastPublish := fastPublish, deepCalled := true
      deepAssessment := some deep_risk
      deepPublish := some (publish cfg env (format_deep_alert dep deep_risk)) }
  else
    { source := source, bytecode := bytecode, fastAssessment := risk
      fastPublish := fastPublish, deepCalled := false
      deepAssessment := none, deepPublish := none }

/-- One row of the sqlite `deployments` table from `store.py`
(`tx_hash` is the primary key). -/
structure DeploymentRow where
  tx_hash : String
  block_number : Nat
  contract_address : String
  deployer : String
  created_at : Nat
deriving DecidableEq, Repr

/-- State of the sqlite store from `store.py`: the `meta` row holding
`last_block` and the `deployments` table. -/
structure StoreState where
  last_block : Option Nat
  deployments : List DeploymentRow
deriving DecidableEq, Repr

/-- Query `Store.has_tx`: is there a `deployments` row with this hash? -/
def StoreState.has_tx (st : StoreState) (txh : String) : Bool :=
  st.deployments.any fun r => r.tx_hash == txh

/-- Mutation `Store.add_deployment`: `INSERT OR IGNORE` keyed on
`tx_hash`. -/
def StoreState.add_deployment (st : StoreState) (row : DeploymentRow) : StoreState :=
  if st.has_tx row.tx_hash then st
  else { st with deployments := st.deployments ++ [row] }

/-- Mutation `Store.set_last_block`: upsert of the `last_block` meta row. -/
def StoreState.set_last_block (st : StoreState) (b : Nat) : StoreState :=
  { st with last_block := some b }

/-- Observable actions of the scan loop, in program order: an event id
persisted via `add_deployment`, an invocation of `enrich_and_triage` for an
event id, and a `set_last_block` checkpoint for a height. -/
inductive LoopAction where
  | marked (tx_hash : String)
  | invoked (tx_hash : String)
  | checkpoint (height : Nat)
deriving DecidableEq, Repr

/-- Oracle bundle for the scan loop: the chain scanner
(`iter_deployments_in_block`) and the whole per-event pipeline
(`enrich_and_triage` with its transports) abstracted as fallible calls, and
the wall clock used for `created_at`. -/
structure LoopEnv where
  iter_deployments_in_block : Nat → Except String (List Deployment)
  run_pipeline : Deployment → Except String Unit
  now : Nat

/-- Inner `for dep in rpc.iter_deployments_in_block(bn)` body of `run_loop`:
skip already-seen hashes, otherwise persist the row first and then invoke
the pipeline.  A pipeline exception aborts the remainder of the cycle
(third component `some e`), with the store mutations made so far kept. -/
def processDeps (env : LoopEnv) (st : StoreState) :
    List Deployment → StoreState × List LoopAction × Option String
  | [] => (st, [], none)
  | dep :: rest =>
      if st.has_tx dep.tx_hash then processDeps env st rest
      else
        let st1 := st.add_deployment
          ⟨dep.tx_hash, dep.block_number, dep.contract_address, dep.deployer, env.now⟩
        match env.run_pipeline dep with
        | .error e => (st1, [.marked dep.tx_hash, .invoked dep.tx_hash], some e)
        | .ok _ =>
            let r := processDeps env st1 rest
            (r.1, .marked dep.tx_hash :: .invoked dep.tx_hash :: r.2.1, r.2.2)

/-- Outer `for bn in range(last + 1, end + 1)` body of `run_loop`: fetch the
block's deployments (a scanner exception aborts the cycle before any event
of that height), drain them, then checkpoint the height via
`set_last_block`.  The third component records the height at which the
cycle aborted, if any. -/
def processBlocks (env : LoopEnv) (st : StoreState) :
    List Nat → StoreState × List LoopAction × Option (Nat × String)
  | [] => (st, [], none)
  | bn :: rest =>
      match env.iter_deployments_in_block bn with
      | .error e => (st, [], some (bn, e))
      | .ok deps =>
          match processDeps env st deps with
          | (st1, tr, some e) => (st1, tr, some (bn, e))
          | (st1, tr, none) =>
              let r := processBlocks env (st1.set_last_block bn) rest
              (r.1, tr ++ .checkpoint bn :: r.2.1, r.2.2)

/-- One iteration of the `while True` loop of `run_loop`, given the tip
height `latest` already fetched: when `last < latest` it drains heights
`last+1 .. min(latest, last+10)`; the in-memory cursor `last` is updated to
`end` only after the whole `for` loop completed, so any caught exception
leaves it unchanged.  Returns (new cursor, new store, action trace). -/
def run_cycle (env : LoopEnv) (latest last : Nat) (st : StoreState) :
    Nat × StoreState × List LoopAction :=
  if last < latest then
    let e := min latest (last + 10)
    match processBlocks env st (List.range' (last + 1) (e - last)) with
    | (st1, tr, none) => (e, st1, tr)
    | (st1, tr, some _) => (last, st1, tr)
  else (last, st, [])

/-- Mark ids recorded by a trace, newest first, extending an ambient
list `seen` of ids already persisted. -/
def seenAfter (seen : List String) : List LoopAction → List String
  | [] => seen
  | .marked t :: rest => seenAfter (t :: seen) rest
  | .invoked _ :: rest => seenAfter seen rest
  | .checkpoint _ :: rest => seenAfter seen rest

/-- Trace checker: every `invoked` action is preceded (within the trace, or
by the ambient `seen` list) by a `marked` action for the same id. -/
def marksPrecede (seen : List String) : List LoopAction → Bool
  | [] => true
  | .marked t :: rest => marksPrecede (t :: seen) rest
  | .invoked t :: rest => seen.contains t && marksPrecede seen rest
  | .checkpoint _ :: rest => marksPrecede seen rest

/-- Heights checkpointed by a trace, in order. -/
def checkpointsOf (tr : List LoopAction) : List Nat :=
  tr.filterMap fun a =>
    match a with
    | .checkpoint h => some h
    | _ => none

/-- Scan-loop environment in which every external call succeeds: the
scanner reports `ev h` for height `h` and the pipeline never raises. -/
def pureEnv (ev : Nat → List Deployment) (now : Nat) : LoopEnv :=
  { iter_deployments_in_block := fun h => .ok (ev h)
    run_pipeline := fun _ => .ok ()
    now := now }

/-- Height-segmented trace shape: for each height in order, the actions of
that height's events followed by that height's checkpoint. -/
def segTrace (ev : Nat → List Deployment) (now : Nat) :
    StoreState → List Nat → List LoopAction
  | _, [] => []
  | st, bn :: rest =>
      let r := processDeps (pureEnv ev now) st (ev bn)
      r.2.1 ++ .checkpoint bn :: segTrace ev now (r.1.set_last_block bn) rest

/-- Concrete configuration fixture: default thresholds, every collaborator
configured. -/
def cfg0 : Config :=
  { base_rpc_url := "https://mainnet.base.org", poll_interval_seconds := 30
    start_block := "latest", alert_min_score := 3, deep_analysis_threshold := 6
    anthropic_api_key := some "key", basescan_api_key := some "bs"
    telegram_bot_token := some "tok", telegram_chat_id := some "chat"
    whatsapp_target := some "wa" }

/-- Concrete deployment fixture. -/
def dep0 : Deployment :=
  { block_number := 100, tx_hash := "0xabc", contract_address := "0xc0de"
    deployer := "0xd00d" }

/-- Pipeline oracle fixture in which enrichment fails, both evaluators
succeed with a fixed score, and both transports succeed. -/
def envScore (n : Int) : PipelineEnv :=
  { sourceCall := .error "basescan down", bytecodeCall := .ok none
    fastCall := fun _ => .ok { score := n, headline := "h", tags := ["t"] }
    deepCall := fun _ => .ok { score := n, headline := "hd", tags := [], findings := [], summary := "sum" }
    telegramSend := fun _ => .ok (), whatsappSend := fun _ => .ok () }


/-- C1: with `alert_min_score = 3`, `deep_analysis_threshold = 6` and a deep
evaluator configured (an Anthropic key is present; `main.py` gates the deep
call on the same key as the fast call), a fast assessment with score 2
dispatches no alert and triggers no deep evaluation; score 4 dispatches
exactly one fast alert (one `_publish` call) and no deep evaluation;
score 7 dispatches a fast alert, invokes the deep evaluator exactly once
(the single guarded `deep_analysis` call, recorded as `deepCalled`), and
dispatches a deep alert. -/
theorem threshold_correctness (dep : Deployment) (cfg : Config) (env : PipelineEnv)
    (r : FastResponse)
    (hmin : cfg.alert_min_score = 3) (hdeep : cfg.deep_analysis_threshold = 6)
    (hkey : truthy cfg.anthropic_api_key = true)
    (hfast : ∀ s, env.fastCall s = .ok r) :
    (r.score = 2 →
      (enrich_and_triage dep cfg env).fastPublish = none ∧
      (enrich_and_triage dep cfg env).deepCalled = false ∧
      (enrich_and_triage dep cfg env).deepPublish = none) ∧
    (r.score = 4 →
      (enrich_and_triage dep cfg env).fastPublish.isSome = true ∧
      (enrich_and_triage dep cfg env).deepCalled = false ∧
      (enrich_and_triage dep cfg env).deepPublish = none) ∧
    (r.score = 7 →
      (enrich_and_triage dep cfg env).fastPublish.isSome = true ∧
      (enrich_and_triage dep cfg env).deepCalled = true ∧
      (enrich_and_triage dep cfg env).deepPublish.isSome = true) := by
  refine ⟨fun hsc => ?_, fun hsc => ?_, fun hsc => ?_⟩ <;>
    simp [enrich_and_triage, fast_triage, hfast, hkey, hmin, hdeep, hsc]

/-- Witness for `threshold_correctness` at a concrete deployment,
configuration and evaluator response of score 7. -/
theorem threshold_correctness_witness :
    ((7 : Int) = 2 →
      (enrich_and_triage dep0 cfg0 (envScore 7)).fastPublish = none ∧
      (enrich_and_triage dep0 cfg0 (envScore 7)).deepCalled = false ∧
      (enrich_and_triage dep0 cfg0 (envScore 7)).deepPublish = none) ∧
    ((7 : Int) = 4 →
      (enrich_and_triage dep0 cfg0 (envScore 7)).fastPublish.isSome = true ∧
      (enrich_and_triage dep0 cfg0 (envScore 7)).deepCalled = false ∧
      (enrich_and_triage dep0 cfg0 (envScore 7)).deepPublish = none) ∧
    ((7 : Int) = 7 →
      (enrich_and_triage dep0 cfg0 (envScore 7)).fastPublish.isSome = true ∧
      (enrich_and_triage dep0 cfg0 (envScore 7)).deepCalled = true ∧
      (enrich_and_triage dep0 cfg0 (envScore 7)).deepPublish.isSome = true) :=
  threshold_correctness dep0 cfg0 (envScore 7)
    { score := 7, headline := "h", tags := ["t"] }
    (by decide) (by decide) (by decide) (fun _ => rfl)

/-- C5: evaluation of the code at the failing input.  `fast_triage` applies
`int(result["score"])` with no clamping, so a well-formed evaluator
response carrying the out-of-range score 15 flows into the pipeline's
assessment unchanged, violating the documented invariant
`0 <= score <= 10`. -/
theorem score_range_violation :
    (enrich_and_triage dep0 cfg0 (envScore 15)).fastAssessment.score = 15 ∧
    ¬ (0 ≤ (enrich_and_triage dep0 cfg0 (envScore 15)).fastAssessment.score ∧
       (enrich_and_triage dep0 cfg0 (envScore 15)).fastAssessment.score ≤ 10) := by
  decide

/-- C10: with no Anthropic API key configured, every deployment gets the
fixed placeholder assessment from `quick_heuristic_assess` (score 5,
headline "New contract detected (triage pending)", tags ["unverified"],
tier "placeholder"), deep analysis is never invoked, and — at the default
`alert_min_score = 3`, which `load_config` yields whenever the
`ALERT_MIN_SCORE` variable is unset — a fast alert is dispatched for every
deployment. -/
theorem no_api_key_placeholder (dep : Deployment) (cfg : Config) (env : PipelineEnv)
    (hkey : truthy cfg.anthropic_api_key = false) :
    (enrich_and_triage dep cfg env).fastAssessment =
      { score := 5, headline := "New contract detected (triage pending)"
        tags := ["unverified"], details := "Contract: " ++ dep.contract_address
        tier := "placeholder" } ∧
    (enrich_and_triage dep cfg env).deepCalled = false ∧
    (enrich_and_triage dep cfg env).deepAssessment = none ∧
    (enrich_and_triage dep cfg env).deepPublish = none ∧
    (cfg.alert_min_score = 3 →
      (enrich_and_triage dep cfg env).fastPublish =
        some (publish cfg env
          (format_fast_alert dep (quick_heuristic_assess dep.contract_address)))) ∧
    (∀ envv c, envv "ALERT_MIN_SCORE" = none → load_config envv = some c →
      c.alert_min_score = 3) := by
  refine ⟨?_, ?_, ?_, ?_, fun hmin => ?_, fun envv c hnone hload => ?_⟩
  · simp [enrich_and_triage, hkey, quick_heuristic_assess]
  · simp [enrich_and_triage, hkey]
  · simp [enrich_and_triage, hkey]
  · simp [enrich_and_triage, hkey]
  · simp [enrich_and_triage, hkey, hmin, quick_heuristic_assess]
  · have h3 : pyInt "3" = some 3 := by decide
    rcases hp : pyInt ((envv "POLL_INTERVAL_SECONDS").getD "30") with _ | poll <;>
      rcases hd : pyInt ((envv "DEEP_ANALYSIS_THRESHOLD").getD "6") with _ | dth <;>
      (simp [load_config, hnone, hp, hd, h3] at hload; try simp [← hload])

/-- Pipeline oracle fixture with no working collaborators: enrichment and
both evaluators fail, transports succeed. -/
def envAllFail : PipelineEnv :=
  { sourceCall := .error "basescan down", bytecodeCall := .error "basescan down"
    fastCall := fun _ => .error "api down", deepCall := fun _ => .error "api down"
    telegramSend := fun _ => .ok (), whatsappSend := fun _ => .ok () }

/-- Configuration fixture with no Anthropic key. -/
def cfgNoKey : Config := { cfg0 with anthropic_api_key := none }

/-- Witness for `no_api_key_placeholder` at a concrete deployment and
key-less configuration. -/
theorem no_api_key_placeholder_witness :
    (enrich_and_triage dep0 cfgNoKey (envScore 7)).fastAssessment =
      { score := 5, headline := "New contract detected (triage pending)"
        tags := ["unverified"], details := "Contract: " ++ dep0.contract_address
        tier := "placeholder" } ∧
    (enrich_and_triage dep0 cfgNoKey (envScore 7)).deepCalled = false ∧
    (enrich_and_triage dep0 cfgNoKey (envScore 7)).deepAssessment = none ∧
    (enrich_and_triage dep0 cfgNoKey (envScore 7)).deepPublish = none ∧
    (cfgNoKey.alert_min_score = 3 →
      (enrich_and_triage dep0 cfgNoKey (envScore 7)).fastPublish =
        some (publish cfgNoKey (envScore 7)
          (format_fast_alert dep0 (quick_heuristic_assess dep0.contract_address)))) ∧
    (∀ envv c, envv "ALERT_MIN_SCORE" = none → load_config envv = some c →
      c.alert_min_score = 3) :=
  no_api_key_placeholder dep0 cfgNoKey (envScore 7) (by decide)

/-- C8: when the enrichment lookup fails (the `try` around the BaseScan
fetches lands in the `except`), the pipeline proceeds with `source = None`
and `bytecode = None`; the context handed to the fast evaluator is then the
"Unavailable" one, and the fast tier still runs (the trace's fast
assessment is exactly the fast-triage of the empty enrichment), instead of
the event's processing aborting. -/
theorem enrichment_failure_nonfatal (dep : Deployment) (cfg : Config)
    (env : PipelineEnv) (err : String) (hsrc : env.sourceCall = .error err) :
    enrich env = (none, none) ∧
    (enrich_and_triage dep cfg env).source = none ∧
    (enrich_and_triage dep cfg env).bytecode = none ∧
    (truthy cfg.anthropic_api_key = true →
      (enrich_and_triage dep cfg env).fastAssessment =
        fast_triage dep.contract_address dep.deployer none none env.fastCall) ∧
    build_context dep.contract_address dep.deployer none none =
      String.intercalate "\n"
        ["Contract address: " ++ dep.contract_address
         , "Deployer: " ++ dep.deployer
         , "Chain: Base (L2)"
         , "\nNo verified source code or bytecode available. Score based on metadata only."] := by
  have henr : enrich env = (none, none) := by simp [enrich, hsrc]
  refine ⟨henr, ?_, ?_, fun hkey => ?_, by simp [build_context]⟩
  · simp [enrich_and_triage, henr, apply_ite PipelineTrace.source, ite_self]
  · simp [enrich_and_triage, henr, apply_ite PipelineTrace.bytecode, ite_self]
  · simp [enrich_and_triage, henr, hkey, apply_ite PipelineTrace.fastAssessment, ite_self]

/-- Witness for `enrichment_failure_nonfatal` at a concrete deployment and
failing enrichment oracle. -/
theorem enrichment_failure_nonfatal_witness :
    enrich (envScore 4) = (none, none) ∧
    (enrich_and_triage dep0 cfg0 (envScore 4)).source = none ∧
    (enrich_and_triage dep0 cfg0 (envScore 4)).bytecode = none ∧
    (truthy cfg0.anthropic_api_key = true →
      (enrich_and_triage dep0 cfg0 (envScore 4)).fastAssessment =
        fast_triage dep0.contract_address dep0.deployer none none (envScore 4).fastCall) ∧
    build_context dep0.contract_address dep0.deployer none none =
      String.intercalate "\n"
        ["Contract address: " ++ dep0.contract_address
         , "Deployer: " ++ dep0.deployer
         , "Chain: Base (L2)"
         , "\nNo verified source code or bytecode available. Score based on metadata only."] :=
  enrichment_failure_nonfatal dep0 cfg0 (envScore 4) "basescan down" rfl

/-- C3 counterexample: the claim names the fallback tag
`evaluation-error`, but on a failing fast evaluator the code's fallback
assessment is tagged `triage-error` (and a failing deep evaluator yields
`analysis-error`), so the claimed tag list is refuted at this concrete
input. -/
theorem fallback_tag_counterexample :
    ¬ ((enrich_and_triage dep0 cfg0 envAllFail).fastAssessment.tags =
        ["evaluation-error"]) := by
  decide

/-- C3 as amended: on a fast-evaluator failure the pipeline substitutes the
neutral fallback `score = 5`, headline "Fast triage failed: e", tags
`["triage-error"]`, tier `fast`, still completes, and — when the fallback
score 5 meets `alert_min_score` — dispatches the fast alert built from that
fallback assessment; on a deep-evaluator failure (reached when the fast
score passes the deep threshold) the deep fallback is `score = 5`, tags
`["analysis-error"]`, tier `deep`, and the deep alert is still
dispatched. -/
theorem fallback_assessment (dep : Deployment) (cfg : Config) (env : PipelineEnv)
    (efast edeep : String) (r : FastResponse)
    (hkey : truthy cfg.anthropic_api_key = true) :
    ((∀ s, env.fastCall s = .error efast) →
      (enrich_and_triage dep cfg env).fastAssessment =
        { score := 5, headline := "Fast triage failed: " ++ efast
          tags := ["triage-error"], details := efast, tier := "fast" } ∧
      ((5 : Int) ≥ cfg.alert_min_score →
        (enrich_and_triage dep cfg env).fastPublish =
          some (publish cfg env (format_fast_alert dep
            { score := 5, headline := "Fast triage failed: " ++ efast
              tags := ["triage-error"], details := efast, tier := "fast" })))) ∧
    ((∀ s, env.fastCall s = .ok r) → r.score ≥ cfg.deep_analysis_threshold →
      (∀ s, env.deepCall s = .error edeep) →
      (enrich_and_triage dep cfg env).deepCalled = true ∧
      (enrich_and_triage dep cfg env).deepAssessment =
        some { score := 5, headline := "Deep analysis failed: " ++ edeep
               tags := ["analysis-error"], details := edeep, tier := "deep" } ∧
      (enrich_and_triage dep cfg env).deepPublish.isSome = true) := by
  constructor
  · intro hfast
    constructor
    · simp [enrich_and_triage, fast_triage, hfast, hkey,
        apply_ite PipelineTrace.fastAssessment, ite_self]
    · intro hmin
      simp [enrich_and_triage, fast_triage, hfast, hkey, hmin,
        apply_ite PipelineTrace.fastPublish, ite_self]
  · intro hfast hscore hdeep
    refine ⟨?_, ?_, ?_⟩ <;>
      simp [enrich_and_triage, fast_triage, deep_analysis, hfast, hdeep, hkey, hscore]

/-- Witness for `fallback_assessment` at a concrete deployment and a
failing-evaluator oracle. -/
theorem fallback_assessment_witness :
    ((∀ s, envAllFail.fastCall s = .error "api down") →
      (enrich_and_triage dep0 cfg0 envAllFail).fastAssessment =
        { score := 5, headline := "Fast triage failed: " ++ "api down"
          tags := ["triage-error"], details := "api down", tier := "fast" } ∧
      ((5 : Int) ≥ cfg0.alert_min_score →
        (enrich_and_triage dep0 cfg0 envAllFail).fastPublish =
          some (publish cfg0 envAllFail (format_fast_alert dep0
            { score := 5, headline := "Fast triage failed: " ++ "api down"
              tags := ["triage-error"], details := "api down", tier := "fast" })))) ∧
    ((∀ s, envAllFail.fastCall s = .ok { score := 9, headline := "h", tags := [] }) →
      (9 : Int) ≥ cfg0.deep_analysis_threshold →
      (∀ s, envAllFail.deepCall s = .error "api down") →
      (enrich_and_triage dep0 cfg0 envAllFail).deepCalled = true ∧
      (enrich_and_triage dep0 cfg0 envAllFail).deepAssessment =
        some { score := 5, headline := "Deep analysis failed: " ++ "api down"
               tags := ["analysis-error"], details := "api down", tier := "deep" } ∧
      (enrich_and_triage dep0 cfg0 envAllFail).deepPublish.isSome = true) :=
  fallback_assessment dep0 cfg0 envAllFail "api down" "api down"
    { score := 9, headline := "h", tags := [] } (by decide)

/-- C6: every configured channel sink has its send issued by `_publish`
(the task list is built before the joint `asyncio.gather`, so a failure of
one channel cannot prevent the other's send); with the Telegram sink always
failing and WhatsApp configured, WhatsApp still receives the message, the
failure is only logged, and `_publish` returns normally; moreover the
pipeline's control flow — assessments, escalation decision, and whether
each alert was published — is identical under any two transport behaviours,
so the event still completes. -/
theorem delivery_isolation (cfg : Config) (env env2 : PipelineEnv)
    (dep : Deployment) (msg err : String)
    (htg : truthy cfg.telegram_bot_token = true)
    (hch : truthy cfg.telegram_chat_id = true)
    (hwa : truthy cfg.whatsapp_target = true)
    (htfail : ∀ m, env.telegramSend m = .error err)
    (hwok : ∀ m, env.whatsappSend m = .ok ())
    (hsrc : env2.sourceCall = env.sourceCall)
    (hbc : env2.bytecodeCall = env.bytecodeCall)
    (hfc : env2.fastCall = env.fastCall)
    (hdc : env2.deepCall = env.deepCall) :
    (publish cfg env msg).attempted = [Channel.telegram, Channel.whatsapp] ∧
    (publish cfg env msg).delivered = [Channel.whatsapp] ∧
    (publish cfg env msg).errors = ["Publish error: " ++ err] ∧
    (enrich_and_triage dep cfg env2).fastAssessment =
      (enrich_and_triage dep cfg env).fastAssessment ∧
    (enrich_and_triage dep cfg env2).deepCalled =
      (enrich_and_triage dep cfg env).deepCalled ∧
    (enrich_and_triage dep cfg env2).deepAssessment =
      (enrich_and_triage dep cfg env).deepAssessment ∧
    (enrich_and_triage dep cfg env2).fastPublish.isSome =
      (enrich_and_triage dep cfg env).fastPublish.isSome ∧
    (enrich_and_triage dep cfg env2).deepPublish.isSome =
      (enrich_and_triage dep cfg env).deepPublish.isSome := by
  have henr : enrich env2 = enrich env := by simp [enrich, hsrc, hbc]
  refine ⟨?_, ?_, ?_, ?_, ?_, ?_, ?_, ?_⟩ <;>
    simp [publish, enrich_and_triage, htg, hch, hwa, htfail, hwok,
      henr, hfc, hdc, apply_ite PipelineTrace.fastAssessment,
      apply_ite PipelineTrace.deepCalled, apply_ite PipelineTrace.deepAssessment,
      apply_ite PipelineTrace.fastPublish, apply_ite PipelineTrace.deepPublish,
      apply_ite Option.isSome, ite_self]

/-- Pipeline oracle fixture in which only the Telegram transport fails. -/
def envTgFail : PipelineEnv :=
  { sourceCall := .error "basescan down", bytecodeCall := .ok none
    fastCall := fun _ => .ok { score := 4, headline := "h", tags := [] }
    deepCall := fun _ => .ok { score := 4, headline := "hd", tags := [], findings := [], summary := "" }
    telegramSend := fun _ => .error "telegram 500"
    whatsappSend := fun _ => .ok () }

/-- Witness for `delivery_isolation` at a concrete configuration with both
channels configured and a Telegram sink that always fails. -/
theorem delivery_isolation_witness :
    (publish cfg0 envTgFail "hello").attempted = [Channel.telegram, Channel.whatsapp] ∧
    (publish cfg0 envTgFail "hello").delivered = [Channel.whatsapp] ∧
    (publish cfg0 envTgFail "hello").errors = ["Publish error: " ++ "telegram 500"] ∧
    (enrich_and_triage dep0 cfg0 envTgFail).fastAssessment =
      (enrich_and_triage dep0 cfg0 envTgFail).fastAssessment ∧
    (enrich_and_triage dep0 cfg0 envTgFail).deepCalled =
      (enrich_and_triage dep0 cfg0 envTgFail).deepCalled ∧
    (enrich_and_triage dep0 cfg0 envTgFail).deepAssessment =
      (enrich_and_triage dep0 cfg0 envTgFail).deepAssessment ∧
    (enrich_and_triage dep0 cfg0 envTgFail).fastPublish.isSome =
      (enrich_and_triage dep0 cfg0 envTgFail).fastPublish.isSome ∧
    (enrich_and_triage dep0 cfg0 envTgFail).deepPublish.isSome =
      (enrich_and_triage dep0 cfg0 envTgFail).deepPublish.isSome :=
  delivery_isolation cfg0 envTgFail envTgFail dep0 "hello" "telegram 500"
    (by decide) (by decide) (by decide) (fun _ => rfl) (fun _ => rfl)
    rfl rfl rfl rfl

/-- Report body of 5,000 characters, the concrete truncation input. -/
def longBody : String := String.mk (List.replicate 5000 'a')

/-- C4 counterexample: the claim bounds the truncated text by 4,000
characters including the marker, but `send_telegram` appends the 13-char
marker "\n…(truncated)" after cutting to 4,000, handing the transport a
4,013-character text. -/
theorem truncation_limit_counterexample :
    ¬ ((send_telegram_text longBody).length ≤ 4000) := by
  have hmarker : ("\n…(truncated)" : String).length = 13 := by decide
  have hlen : longBody.length = 5000 := by
    show (String.mk (List.replicate 5000 'a')).length = 5000
    rw [String.length_mk, List.length_replicate]
  have h1 : (pySlice longBody 4000).length = 4000 := by
    show (String.mk ((List.replicate 5000 'a').take 4000)).length = 4000
    rw [String.length_mk, List.length_take, List.length_replicate]
    omega
  intro hle
  unfold send_telegram_text at hle
  rw [if_pos (show longBody.length > 4000 by rw [hlen]; omega)] at hle
  rw [String.length_append, h1, hmarker] at hle
  omega

/-- C4 as amended: for any text over the 4,000-character guard (such as a
deep-alert message carrying a long report), `send_telegram` hands the
transport the first 4,000 characters plus the appended truncation marker —
at most 4,013 characters in total, within Telegram's 4,096 limit — and no
exception is raised (the transform is total). -/
theorem truncation_amended (text : String) (h : text.length > 4000) :
    send_telegram_text text = pySlice text 4000 ++ "\n…(truncated)" ∧
    (send_telegram_text text).length = 4013 ∧
    (send_telegram_text text).length ≤ 4096 := by
  have heq : send_telegram_text text = pySlice text 4000 ++ "\n…(truncated)" := by
    unfold send_telegram_text
    rw [if_pos h]
  have hslice : (pySlice text 4000).length = 4000 := by
    show (String.mk (text.data.take 4000)).length = 4000
    rw [String.length_mk, List.length_take]
    have hdl : text.data.length = text.length := rfl
    omega
  have hmarker : ("\n…(truncated)" : String).length = 13 := by decide
  have hle : (send_telegram_text text).length = 4013 := by
    rw [heq, String.length_append, hslice, hmarker]
  exact ⟨heq, hle, by omega⟩

/-- Witness for `truncation_amended` at the concrete 5,000-character
report body. -/
theorem truncation_amended_witness :
    longBody.length > 4000 ∧
    (send_telegram_text longBody = pySlice longBody 4000 ++ "\n…(truncated)" ∧
     (send_telegram_text longBody).length = 4013 ∧
     (send_telegram_text longBody).length ≤ 4096) := by
  have hgt : longBody.length > 4000 := by
    show (String.mk (List.replicate 5000 'a')).length > 4000
    rw [String.length_mk, List.length_replicate]
    omega
  exact ⟨hgt, truncation_amended longBody hgt⟩

/-- Recording a row preserves every previously recorded hash. -/
theorem has_tx_mono_add (st : StoreState) (row : DeploymentRow) (txh : String)
    (h : st.has_tx txh = true) : (st.add_deployment row).has_tx txh = true := by
  unfold StoreState.add_deployment
  split
  · exact h
  · simp only [StoreState.has_tx, List.any_append] at h ⊢
    simp [h]

/-- Recording a row records its own hash. -/
theorem has_tx_add_self (st : StoreState) (row : DeploymentRow) :
    (st.add_deployment row).has_tx row.tx_hash = true := by
  unfold StoreState.add_deployment
  split
  · assumption
  · simp [StoreState.has_tx, List.any_append]

/-- Checkpointing does not touch the deployments table. -/
theorem has_tx_set_last_block (st : StoreState) (b : Nat) (txh : String) :
    (st.set_last_block b).has_tx txh = st.has_tx txh := rfl

/-- Draining a block's events only grows the set of recorded hashes. -/
theorem processDeps_has_tx_mono (env : LoopEnv) (l : List Deployment) :
    ∀ st txh, st.has_tx txh = true → (processDeps env st l).1.has_tx txh = true := by
  induction l with
  | nil => intro st txh h; simpa [processDeps] using h
  | cons dep rest ih =>
      intro st txh h
      by_cases hskip : st.has_tx dep.tx_hash = true
      · simpa [processDeps, hskip] using ih st txh h
      · simp only [processDeps, hskip, if_false, Bool.false_eq_true]
        cases henv : env.run_pipeline dep with
        | error e => simpa [henv] using has_tx_mono_add st _ txh h
        | ok u => simpa [henv] using ih _ txh (has_tx_mono_add st _ txh h)

/-- Every id the block-drain invoked the pipeline for ends up recorded in
the resulting store. -/
theorem processDeps_invoked_recorded (env : LoopEnv) (l : List Deployment) :
    ∀ st txh, LoopAction.invoked txh ∈ (processDeps env st l).2.1 →
      (processDeps env st l).1.has_tx txh = true := by
  induction l with
  | nil => intro st txh h; simp [processDeps] at h
  | cons dep rest ih =>
      intro st txh h
      by_cases hskip : st.has_tx dep.tx_hash = true
      · simp only [processDeps, hskip, if_true] at h ⊢
        exact ih st txh h
      · cases henv : env.run_pipeline dep with
        | error e =>
            simp only [processDeps, hskip, if_false, Bool.false_eq_true, henv] at h ⊢
            simp at h
            subst h
            exact has_tx_add_self st _
        | ok u =>
            simp only [processDeps, hskip, if_false, Bool.false_eq_true, henv] at h ⊢
            simp at h
            rcases h with h | h
            · subst h
              exact processDeps_has_tx_mono env rest _ dep.tx_hash (has_tx_add_self st _)
            · exact ih _ txh h

/-- An id already recorded before the block drain is never invoked by it
(the idempotence guard `if store.has_tx(...): continue`). -/
theorem processDeps_count_zero (env : LoopEnv) (l : List Deployment) :
    ∀ st txh, st.has_tx txh = true →
      List.count (LoopAction.invoked txh) (processDeps env st l).2.1 = 0 := by
  induction l with
  | nil => intro st txh h; simp [processDeps]
  | cons dep rest ih =>
      intro st txh h
      by_cases hskip : st.has_tx dep.tx_hash = true
      · simp only [processDeps, hskip, if_true]
        exact ih st txh h
      · have hne : txh ≠ dep.tx_hash := by
          intro he
          exact hskip (he ▸ h)
        cases henv : env.run_pipeline dep with
        | error e =>
            simp only [processDeps, hskip, if_false, Bool.false_eq_true, henv]
            simp [List.count_cons, hne]
        | ok u =>
            simp only [processDeps, hskip, if_false, Bool.false_eq_true, henv]
            simp only [List.count_cons]
            simp [hne, Ne.symm hne, ih _ txh (has_tx_mono_add st _ txh h)]

/-- One block drain invokes the pipeline at most once per id. -/
theorem processDeps_count_le_one (env : LoopEnv) (l : List Deployment) :
    ∀ st txh, List.count (LoopAction.invoked txh) (processDeps env st l).2.1 ≤ 1 := by
  induction l with
  | nil => intro st txh; simp [processDeps]
  | cons dep rest ih =>
      intro st txh
      by_cases hskip : st.has_tx dep.tx_hash = true
      · simp only [processDeps, hskip, if_true]
        exact ih st txh
      · cases henv : env.run_pipeline dep with
        | error e =>
            simp only [processDeps, hskip, if_false, Bool.false_eq_true, henv]
            by_cases he : txh = dep.tx_hash <;> simp [List.count_cons, he]
        | ok u =>
            simp only [processDeps, hskip, if_false, Bool.false_eq_true, henv]
            by_cases he : txh = dep.tx_hash
            · subst he
              have h0 := processDeps_count_zero env rest
                (st.add_deployment
                  ⟨dep.tx_hash, dep.block_number, dep.contract_address, dep.deployer, env.now⟩)
                dep.tx_hash (has_tx_add_self st _)
              simp [List.count_cons, h0]
            · simpa [List.count_cons, he] using ih _ txh

/-- In every block-drain trace, an id's `marked` action comes before its
`invoked` action: the row is persisted before the pipeline runs. -/
theorem processDeps_marksPrecede (env : LoopEnv) (l : List Deployment) :
    ∀ st seen, marksPrecede seen (processDeps env st l).2.1 = true := by
  induction l with
  | nil => intro st seen; simp [processDeps, marksPrecede]
  | cons dep rest ih =>
      intro st seen
      by_cases hskip : st.has_tx dep.tx_hash = true
      · simp only [processDeps, hskip, if_true]
        exact ih st seen
      · cases henv : env.run_pipeline dep with
        | error e =>
            simp only [processDeps, hskip, if_false, Bool.false_eq_true, henv]
            simp [marksPrecede]
        | ok u =>
            simp only [processDeps, hskip, if_false, Bool.false_eq_true, henv]
            simp [marksPrecede, ih]

/-- Splitting a trace across an append for the mark-precedes checker. -/
theorem marksPrecede_append (a : List LoopAction) :
    ∀ seen (b : List LoopAction),
      marksPrecede seen (a ++ b) =
        (marksPrecede seen a && marksPrecede (seenAfter seen a) b) := by
  induction a with
  | nil => intro seen b; simp [marksPrecede, seenAfter]
  | cons x rest ih =>
      intro seen b
      cases x <;> simp [marksPrecede, seenAfter, ih, Bool.and_assoc]

/-- Draining a batch of blocks only grows the set of recorded hashes. -/
theorem processBlocks_has_tx_mono (env : LoopEnv) (hs : List Nat) :
    ∀ st txh, st.has_tx txh = true → (processBlocks env st hs).1.has_tx txh = true := by
  induction hs with
  | nil => intro st txh h; simpa [processBlocks] using h
  | cons bn rest ih =>
      intro st txh h
      cases hscan : env.iter_deployments_in_block bn with
      | error e => simpa [processBlocks, hscan] using h
      | ok deps =>
          rcases hd : processDeps env st deps with ⟨st1, tr, err⟩
          have hst1 : st1.has_tx txh = true := by
            have hm := processDeps_has_tx_mono env deps st txh h
            rw [hd] at hm
            exact hm
          cases err with
          | some e => simpa [processBlocks, hscan, hd] using hst1
          | none =>
              simp only [processBlocks, hscan, hd]
              exact ih _ txh (by rw [has_tx_set_last_block]; exact hst1)

/-- Every id a batch drain invoked the pipeline for ends up recorded. -/
theorem processBlocks_invoked_recorded (env : LoopEnv) (hs : List Nat) :
    ∀ st txh, LoopAction.invoked txh ∈ (processBlocks env st hs).2.1 →
      (processBlocks env st hs).1.has_tx txh = true := by
  induction hs with
  | nil => intro st txh h; simp [processBlocks] at h
  | cons bn rest ih =>
      intro st txh h
      cases hscan : env.iter_deployments_in_block bn with
      | error e => simp [processBlocks, hscan] at h
      | ok deps =>
          rcases hd : processDeps env st deps with ⟨st1, tr, err⟩
          cases err with
          | some e =>
              simp only [processBlocks, hscan, hd] at h ⊢
              have h1 := processDeps_invoked_recorded env deps st txh (by rw [hd]; exact h)
              rw [hd] at h1
              exact h1
          | none =>
              simp only [processBlocks, hscan, hd] at h ⊢
              rw [List.mem_append] at h
              rcases h with h | h
              · have h1 := processDeps_invoked_recorded env deps st txh (by rw [hd]; exact h)
                rw [hd] at h1
                exact processBlocks_has_tx_mono env rest _ txh
                  (by rw [has_tx_set_last_block]; exact h1)
              · simp at h
                exact ih _ txh h

/-- An id recorded before a batch drain is never invoked during it. -/
theorem processBlocks_count_zero (env : LoopEnv) (hs : List Nat) :
    ∀ st txh, st.has_tx txh = true →
      List.count (LoopAction.invoked txh) (processBlocks env st hs).2.1 = 0 := by
  induction hs with
  | nil => intro st txh h; simp [processBlocks]
  | cons bn rest ih =>
      intro st txh h
      cases hscan : env.iter_deployments_in_block bn with
      | error e => simp [processBlocks, hscan]
      | ok deps =>
          rcases hd : processDeps env st deps with ⟨st1, tr, err⟩
          have htr : List.count (LoopAction.invoked txh) tr = 0 := by
            have hc := processDeps_count_zero env deps st txh h
            rw [hd] at hc
            exact hc
          have hst1 : st1.has_tx txh = true := by
            have hm := processDeps_has_tx_mono env deps st txh h
            rw [hd] at hm
            exact hm
          cases err with
          | some e => simpa [processBlocks, hscan, hd] using htr
          | none =>
              have hrec := ih (st1.set_last_block bn) txh
                (by rw [has_tx_set_last_block]; exact hst1)
              simp only [processBlocks, hscan, hd]
              simp [List.count_append, List.count_cons, htr, hrec]

/-- A batch drain invokes the pipeline at most once per id. -/
theorem processBlocks_count_le_one (env : LoopEnv) (hs : List Nat) :
    ∀ st txh, List.count (LoopAction.invoked txh) (processBlocks env st hs).2.1 ≤ 1 := by
  induction hs with
  | nil => intro st txh; simp [processBlocks]
  | cons bn rest ih =>
      intro st txh
      cases hscan : env.iter_deployments_in_block bn with
      | error e => simp [processBlocks, hscan]
      | ok deps =>
          rcases hd : processDeps env st deps with ⟨st1, tr, err⟩
          have htr : List.count (LoopAction.invoked txh) tr ≤ 1 := by
            have hc := processDeps_count_le_one env deps st txh
            rw [hd] at hc
            exact hc
          cases err with
          | some e => simpa [processBlocks, hscan, hd] using htr
          | none =>
              simp only [processBlocks, hscan, hd]
              by_cases hz : List.count (LoopAction.invoked txh) tr = 0
              · simpa [List.count_append, List.count_cons, hz] using ih _ txh
              · have hmem : LoopAction.invoked txh ∈ tr :=
                  List.count_pos_iff.mp (Nat.pos_of_ne_zero hz)
                have hst1 : st1.has_tx txh = true := by
                  have h1 := processDeps_invoked_recorded env deps st txh (by rw [hd]; exact hmem)
                  rw [hd] at h1
                  exact h1
                have h2 := processBlocks_count_zero env rest (st1.set_last_block bn) txh
                  (by rw [has_tx_set_last_block]; exact hst1)
                simp [List.count_append, List.count_cons, h2]
                omega

/-- In every batch-drain trace, each invocation is preceded by its mark. -/
theorem processBlocks_marksPrecede (env : LoopEnv) (hs : List Nat) :
    ∀ st seen, marksPrecede seen (processBlocks env st hs).2.1 = true := by
  induction hs with
  | nil => intro st seen; simp [processBlocks, marksPrecede]
  | cons bn rest ih =>
      intro st seen
      cases hscan : env.iter_deployments_in_block bn with
      | error e => simp [processBlocks, hscan, marksPrecede]
      | ok deps =>
          rcases hd : processDeps env st deps with ⟨st1, tr, err⟩
          have htr : ∀ s, marksPrecede s tr = true := by
            intro s
            have hm := processDeps_marksPrecede env deps st s
            rw [hd] at hm
            exact hm
          cases err with
          | some e => simpa [processBlocks, hscan, hd] using htr seen
          | none =>
              simp only [processBlocks, hscan, hd]
              rw [marksPrecede_append]
              simp [marksPrecede, htr, ih]

/-- A batch drain only reports a failure at one of the heights it was
asked to process. -/
theorem processBlocks_err_mem (env : LoopEnv) (hs : List Nat) :
    ∀ st h e, (processBlocks env st hs).2.2 = some (h, e) → h ∈ hs := by
  induction hs with
  | nil => intro st h e herr; simp [processBlocks] at herr
  | cons bn rest ih =>
      intro st h e herr
      cases hscan : env.iter_deployments_in_block bn with
      | error e0 =>
          simp only [processBlocks, hscan] at herr
          simp at herr
          simp [herr.1]
      | ok deps =>
          rcases hd : processDeps env st deps with ⟨st1, tr, err⟩
          cases err with
          | some e0 =>
              simp only [processBlocks, hscan, hd] at herr
              simp at herr
              simp [herr.1]
          | none =>
              simp only [processBlocks, hscan, hd] at herr
              exact List.mem_cons_of_mem bn (ih _ h e herr)

/-- Characterization of one cycle's resulting store and trace: when behind
the tip they come from draining the capped batch, otherwise the cycle is a
no-op. -/
theorem run_cycle_store_trace (env : LoopEnv) (latest last : Nat) (st : StoreState) :
    (run_cycle env latest last st).2.1 =
      (if last < latest then
        (processBlocks env st (List.range' (last + 1) (min latest (last + 10) - last))).1
       else st) ∧
    (run_cycle env latest last st).2.2 =
      (if last < latest then
        (processBlocks env st (List.range' (last + 1) (min latest (last + 10) - last))).2.1
       else []) := by
  unfold run_cycle
  by_cases hlt : last < latest
  · simp only [hlt, if_true]
    rcases hp : processBlocks env st (List.range' (last + 1) (min latest (last + 10) - last))
      with ⟨st1, tr, err⟩
    cases err <;> simp [hp]
  · simp [hlt]

/-- One cycle only grows the set of recorded hashes. -/
theorem run_cycle_has_tx_mono (env : LoopEnv) (latest last : Nat) (st : StoreState)
    (txh : String) (h : st.has_tx txh = true) :
    (run_cycle env latest last st).2.1.has_tx txh = true := by
  rw [(run_cycle_store_trace env latest last st).1]
  by_cases hlt : last < latest
  · simp only [hlt, if_true]
    exact processBlocks_has_tx_mono env _ st txh h
  · simpa [hlt] using h

/-- Every id one cycle invoked the pipeline for is recorded afterwards. -/
theorem run_cycle_invoked_recorded (env : LoopEnv) (latest last : Nat) (st : StoreState)
    (txh : String) (h : LoopAction.invoked txh ∈ (run_cycle env latest last st).2.2) :
    (run_cycle env latest last st).2.1.has_tx txh = true := by
  rw [(run_cycle_store_trace env latest last st).2] at h
  rw [(run_cycle_store_trace env latest last st).1]
  by_cases hlt : last < latest
  · simp only [hlt, if_true] at h ⊢
    exact processBlocks_invoked_recorded env _ st txh h
  · simp [hlt] at h

/-- An id recorded before a cycle is never invoked during it. -/
theorem run_cycle_count_zero (env : LoopEnv) (latest last : Nat) (st : StoreState)
    (txh : String) (h : st.has_tx txh = true) :
    List.count (LoopAction.invoked txh) (run_cycle env latest last st).2.2 = 0 := by
  rw [(run_cycle_store_trace env latest last st).2]
  by_cases hlt : last < latest
  · simp only [hlt, if_true]
    exact processBlocks_count_zero env _ st txh h
  · simp [hlt]

/-- One cycle invokes the pipeline at most once per id. -/
theorem run_cycle_count_le_one (env : LoopEnv) (latest last : Nat) (st : StoreState)
    (txh : String) :
    List.count (LoopAction.invoked txh) (run_cycle env latest last st).2.2 ≤ 1 := by
  rw [(run_cycle_store_trace env latest last st).2]
  by_cases hlt : last < latest
  · simp only [hlt, if_true]
    exact processBlocks_count_le_one env _ st txh
  · simp [hlt]

/-- In one cycle's trace every invocation is preceded by its mark. -/
theorem run_cycle_marksPrecede (env : LoopEnv) (latest last : Nat) (st : StoreState)
    (seen : List String) :
    marksPrecede seen (run_cycle env latest last st).2.2 = true := by
  rw [(run_cycle_store_trace env latest last st).2]
  by_cases hlt : last < latest
  · simp only [hlt, if_true]
    exact processBlocks_marksPrecede env _ st seen
  · simp [hlt, marksPrecede]

/-- C2: across two cycles of the scan loop — where the second resumes from
the store the first left behind, with arbitrary cursors, tips and oracles
(so in particular a restart mid-block and a re-scan of the same heights are
instances) — every `invoked` action is preceded by the `marked` action
persisting the same event id (`add_deployment` runs before
`enrich_and_triage`); the pipeline is invoked at most once per event id in
the combined trace; and an id already recorded in the store before the
first cycle is skipped and never invoked at all. -/
theorem pipeline_at_most_once (env1 env2 : LoopEnv) (latest1 latest2 last1 last2 : Nat)
    (st : StoreState) (txh : String) :
    marksPrecede []
      ((run_cycle env1 latest1 last1 st).2.2 ++
       (run_cycle env2 latest2 last2 (run_cycle env1 latest1 last1 st).2.1).2.2) = true ∧
    List.count (LoopAction.invoked txh)
      ((run_cycle env1 latest1 last1 st).2.2 ++
       (run_cycle env2 latest2 last2 (run_cycle env1 latest1 last1 st).2.1).2.2) ≤ 1 ∧
    (st.has_tx txh = true →
      List.count (LoopAction.invoked txh)
        ((run_cycle env1 latest1 last1 st).2.2 ++
         (run_cycle env2 latest2 last2 (run_cycle env1 latest1 last1 st).2.1).2.2) = 0) := by
  refine ⟨?_, ?_, ?_⟩
  · rw [marksPrecede_append]
    rw [run_cycle_marksPrecede env1 latest1 last1 st [],
        run_cycle_marksPrecede env2 latest2 last2 _ _]
    rfl
  · rw [List.count_append]
    by_cases hz :
        List.count (LoopAction.invoked txh) (run_cycle env1 latest1 last1 st).2.2 = 0
    · rw [hz]
      simpa using run_cycle_count_le_one env2 latest2 last2 _ txh
    · have hmem : LoopAction.invoked txh ∈ (run_cycle env1 latest1 last1 st).2.2 :=
        List.count_pos_iff.mp (Nat.pos_of_ne_zero hz)
      have hrec := run_cycle_invoked_recorded env1 latest1 last1 st txh hmem
      have h2 := run_cycle_count_zero env2 latest2 last2 _ txh hrec
      have h1 := run_cycle_count_le_one env1 latest1 last1 st txh
      omega
  · intro h
    rw [List.count_append]
    have h1 := run_cycle_count_zero env1 latest1 last1 st txh h
    have h2 := run_cycle_count_zero env2 latest2 last2 _ txh
      (run_cycle_has_tx_mono env1 latest1 last1 st txh h)
    omega

/-- C7: a failure raised by the chain scanner or by the pipeline while
processing one height of a cycle is caught by the loop's `try/except`
(`run_cycle` returns normally); the in-memory cursor `last` is then not
advanced at all — in particular not past the failed height, which lies in
the attempted batch — and the next cycle's batch, starting from the
unchanged cursor, contains the failed height again, so it is retried
rather than skipped. -/
theorem loop_failure_containment (env : LoopEnv) (latest last : Nat) (st : StoreState)
    (h : Nat) (e : String) (hlt : last < latest)
    (herr : (processBlocks env st
      (List.range' (last + 1) (min latest (last + 10) - last))).2.2 = some (h, e)) :
    (run_cycle env latest last st).1 = last ∧
    last < h ∧
    h ≤ min latest (last + 10) ∧
    h ∈ List.range' ((run_cycle env latest last st).1 + 1)
          (min latest ((run_cycle env latest last st).1 + 10) -
            (run_cycle env latest last st).1) := by
  have hmem : h ∈ List.range' (last + 1) (min latest (last + 10) - last) :=
    processBlocks_err_mem env _ st h e herr
  obtain ⟨i, hi, hieq⟩ := List.mem_range'.mp hmem
  have hminle1 : min latest (last + 10) ≤ latest := Nat.min_le_left _ _
  have hminle2 : min latest (last + 10) ≤ last + 10 := Nat.min_le_right _ _
  have hminge : last + 1 ≤ min latest (last + 10) := by
    refine Nat.le_min.mpr ⟨hlt, ?_⟩
    omega
  have hcur : (run_cycle env latest last st).1 = last := by
    unfold run_cycle
    simp only [hlt, if_true]
    rcases hp : processBlocks env st
        (List.range' (last + 1) (min latest (last + 10) - last))
      with ⟨st1, tr, err⟩
    rw [hp] at herr
    simp at herr
    subst herr
    simp [hp]
  refine ⟨hcur, by omega, by omega, ?_⟩
  rw [hcur]
  exact hmem

/-- Under a failure-free environment block drains never abort. -/
theorem processDeps_pure_no_error (ev : Nat → List Deployment) (now : Nat)
    (l : List Deployment) :
    ∀ st, (processDeps (pureEnv ev now) st l).2.2 = none := by
  induction l with
  | nil => intro st; simp [processDeps]
  | cons dep rest ih =>
      intro st
      by_cases hskip : st.has_tx dep.tx_hash = true
      · simp only [processDeps, hskip, if_true]
        exact ih st
      · simp only [processDeps, hskip, if_false, Bool.false_eq_true, pureEnv]
        exact ih _

/-- Under a failure-free environment a batch drain never aborts and its
trace has the height-segmented shape: per height, the block's event actions
followed by that height's checkpoint. -/
theorem processBlocks_pure (ev : Nat → List Deployment) (now : Nat) (hs : List Nat) :
    ∀ st, (processBlocks (pureEnv ev now) st hs).2.2 = none ∧
      (processBlocks (pureEnv ev now) st hs).2.1 = segTrace ev now st hs := by
  induction hs with
  | nil => intro st; simp [processBlocks, segTrace]
  | cons bn rest ih =>
      intro st
      rcases hd : processDeps (pureEnv ev now) st (ev bn) with ⟨st1, tr, err⟩
      have herr : err = none := by
        have h0 := processDeps_pure_no_error ev now (ev bn) st
        rw [hd] at h0
        exact h0
      subst herr
      have hscan : (pureEnv ev now).iter_deployments_in_block bn = .ok (ev bn) := rfl
      constructor
      · simp only [processBlocks, hscan, hd]
        exact (ih _).1
      · simp only [processBlocks, hscan, hd, segTrace, hd]
        rw [(ih _).2]

/-- Block drains emit no checkpoint actions. -/
theorem checkpointsOf_processDeps (env : LoopEnv) (l : List Deployment) :
    ∀ st, checkpointsOf (processDeps env st l).2.1 = [] := by
  induction l with
  | nil => intro st; simp [processDeps, checkpointsOf]
  | cons dep rest ih =>
      intro st
      by_cases hskip : st.has_tx dep.tx_hash = true
      · simp only [processDeps, hskip, if_true]
        exact ih st
      · cases henv : env.run_pipeline dep with
        | error e =>
            simp only [processDeps, hskip, if_false, Bool.false_eq_true, henv]
            simp [checkpointsOf]
        | ok u =>
            simp only [processDeps, hskip, if_false, Bool.false_eq_true, henv]
            simp only [checkpointsOf, List.filterMap_cons]
            simpa [checkpointsOf] using ih _

/-- The checkpoints of a segmented trace are exactly its heights, in
order. -/
theorem checkpointsOf_segTrace (ev : Nat → List Deployment) (now : Nat) (hs : List Nat) :
    ∀ st, checkpointsOf (segTrace ev now st hs) = hs := by
  induction hs with
  | nil => intro st; simp [segTrace, checkpointsOf]
  | cons bn rest ih =>
      intro st
      simp only [segTrace, checkpointsOf, List.filterMap_append, List.filterMap_cons]
      have h1 := checkpointsOf_processDeps (pureEnv ev now) (ev bn) st
      simp only [checkpointsOf] at h1
      rw [h1]
      simpa [checkpointsOf] using ih _

/-- The store's `last_block` after a batch drain is the last drained
height (or the prior value when the batch is empty). -/
theorem processBlocks_pure_last_block (ev : Nat → List Deployment) (now : Nat)
    (hs : List Nat) :
    ∀ st, (processBlocks (pureEnv ev now) st hs).1.last_block =
      List.foldl (fun _ bn => some bn) st.last_block hs := by
  induction hs with
  | nil => intro st; simp [processBlocks]
  | cons bn rest ih =>
      intro st
      rcases hd : processDeps (pureEnv ev now) st (ev bn) with ⟨st1, tr, err⟩
      have herr : err = none := by
        have h0 := processDeps_pure_no_error ev now (ev bn) st
        rw [hd] at h0
        exact h0
      subst herr
      have hscan : (pureEnv ev now).iter_deployments_in_block bn = .ok (ev bn) := rfl
      simp only [processBlocks, hscan, hd, List.foldl_cons]
      rw [ih]
      rfl

/-- Folding the checkpoint writes over an ascending height range yields its
greatest element. -/
theorem foldl_range'_last (n : Nat) :
    ∀ s (acc : Option Nat), 1 ≤ n →
      List.foldl (fun _ bn => some bn) acc (List.range' s n) = some (s + n - 1) := by
  induction n with
  | zero => intro s acc h; omega
  | succ m ih =>
      intro s acc _
      rw [List.range'_succ, List.foldl_cons]
      by_cases hm : 1 ≤ m
      · rw [ih (s + 1) (some s) hm]
        congr 1
        omega
      · have hm0 : m = 0 := by omega
        subst hm0
        simp

/-- C9: on a cycle where the cursor is behind the tip and no external call
fails, the scan loop processes exactly the heights
`cursor+1 .. min(tip, cursor+10)`: the cycle's new cursor is that bound;
the trace decomposes height by height, in ascending order, into each
block's event actions followed by that height's `set_last_block`
checkpoint (so `last_processed_height = height` is persisted right after
each height's events are drained); the checkpointed heights are exactly
the batch; and the store finally records the batch's last height. -/
theorem batch_processing (ev : Nat → List Deployment) (now latest last : Nat)
    (st : StoreState) (hlt : last < latest) :
    (run_cycle (pureEnv ev now) latest last st).1 = min latest (last + 10) ∧
    (run_cycle (pureEnv ev now) latest last st).2.2 =
      segTrace ev now st (List.range' (last + 1) (min latest (last + 10) - last)) ∧
    checkpointsOf (run_cycle (pureEnv ev now) latest last st).2.2 =
      List.range' (last + 1) (min latest (last + 10) - last) ∧
    (run_cycle (pureEnv ev now) latest last st).2.1.last_block =
      some (min latest (last + 10)) := by
  obtain ⟨herr, htr⟩ :=
    processBlocks_pure ev now (List.range' (last + 1) (min latest (last + 10) - last)) st
  have hminge : last + 1 ≤ min latest (last + 10) := by
    refine Nat.le_min.mpr ⟨hlt, ?_⟩
    omega
  have hcur : (run_cycle (pureEnv ev now) latest last st).1 = min latest (last + 10) := by
    unfold run_cycle
    simp only [hlt, if_true]
    rcases hp : processBlocks (pureEnv ev now) st
        (List.range' (last + 1) (min latest (last + 10) - last))
      with ⟨st1, tr, err⟩
    rw [hp] at herr
    simp at herr
    subst herr
    simp [hp]
  have htrace : (run_cycle (pureEnv ev now) latest last st).2.2 =
      segTrace ev now st (List.range' (last + 1) (min latest (last + 10) - last)) := by
    rw [(run_cycle_store_trace (pureEnv ev now) latest last st).2]
    simpa [hlt] using htr
  have hstore : (run_cycle (pureEnv ev now) latest last st).2.1.last_block =
      some (min latest (last + 10)) := by
    rw [(run_cycle_store_trace (pureEnv ev now) latest last st).1]
    simp only [hlt, if_true]
    rw [processBlocks_pure_last_block]
    rw [foldl_range'_last (min latest (last + 10) - last) (last + 1) st.last_block
      (by omega)]
    congr 1
    omega
  refine ⟨hcur, htrace, ?_, hstore⟩
  rw [htrace]
  exact checkpointsOf_segTrace ev now _ st

/-- Empty store fixture (fresh sqlite database). -/
def st0 : StoreState := { last_block := none, deployments := [] }

/-- Scanner fixture: one deployment in block 1, nothing elsewhere. -/
def ev0 : Nat → List Deployment := fun h => if h = 1 then [dep0] else []

/-- Failure-free loop environment fixture. -/
def lenv0 : LoopEnv := pureEnv ev0 0

/-- Loop environment fixture whose scanner always fails. -/
def lenvFail : LoopEnv :=
  { iter_deployments_in_block := fun _ => .error "rpc down"
    run_pipeline := fun _ => .ok ()
    now := 0 }

/-- Witness for `pipeline_at_most_once`: the same single-block chain is
scanned by two consecutive cycles from a fresh store. -/
theorem pipeline_at_most_once_witness :
    marksPrecede []
      ((run_cycle lenv0 1 0 st0).2.2 ++
       (run_cycle lenv0 1 0 (run_cycle lenv0 1 0 st0).2.1).2.2) = true ∧
    List.count (LoopAction.invoked "0xabc")
      ((run_cycle lenv0 1 0 st0).2.2 ++
       (run_cycle lenv0 1 0 (run_cycle lenv0 1 0 st0).2.1).2.2) ≤ 1 ∧
    (st0.has_tx "0xabc" = true →
      List.count (LoopAction.invoked "0xabc")
        ((run_cycle lenv0 1 0 st0).2.2 ++
         (run_cycle lenv0 1 0 (run_cycle lenv0 1 0 st0).2.1).2.2) = 0) :=
  pipeline_at_most_once lenv0 lenv0 1 1 0 0 st0 "0xabc"

/-- Witness for `loop_failure_containment`: a scanner that fails at the
first attempted height of a five-block backlog. -/
theorem loop_failure_containment_witness :
    (run_cycle lenvFail 5 0 st0).1 = 0 ∧
    0 < 1 ∧
    1 ≤ min 5 (0 + 10) ∧
    1 ∈ List.range' ((run_cycle lenvFail 5 0 st0).1 + 1)
          (min 5 ((run_cycle lenvFail 5 0 st0).1 + 10) - (run_cycle lenvFail 5 0 st0).1) :=
  loop_failure_containment lenvFail 5 0 st0 1 "rpc down" (by decide) (by decide)

/-- Witness for `batch_processing`: one cycle over a single-block backlog
with one deployment. -/
theorem batch_processing_witness :
    (run_cycle (pureEnv ev0 0) 1 0 st0).1 = min 1 (0 + 10) ∧
    (run_cycle (pureEnv ev0 0) 1 0 st0).2.2 =
      segTrace ev0 0 st0 (List.range' (0 + 1) (min 1 (0 + 10) - 0)) ∧
    checkpointsOf (run_cycle (pureEnv ev0 0) 1 0 st0).2.2 =
      List.range' (0 + 1) (min 1 (0 + 10) - 0) ∧
    (run_cycle (pureEnv ev0 0) 1 0 st0).2.1.last_block = some (min 1 (0 + 10)) :=
  batch_processing ev0 0 1 0 st0 (by decide)
